import Mathlib

/-!
Shallow embedding of the query/aggregation core of the church-management
repository (FastAPI + MongoDB), together with proofs settling the frozen
claims about it.

Conventions of the embedding:
* A MongoDB collection is a `List` of documents; a document is a structure
  whose fields mirror the stored BSON fields.  The stored `_id` is an
  ObjectId; everywhere the code serializes dates with `.isoformat()` we keep
  the ISO string (BSON compares strings lexicographically, as does
  `String.le`).
* Python exceptions that the code can raise are made explicit: a function
  that can raise returns `Except PyErr _`.
* Times are modelled as naturals (a monotone clock); rates are rationals.
-/

deriving instance DecidableEq for Except

namespace ChurchMgmt

/-- Python exceptions that the embedded code can raise. -/
inductive PyErr where
  | valueError (msg : String)
  | attributeError (attr : String)
  | invalidId
  | httpStatusError (code : Nat)
  | exception
deriving DecidableEq, Repr

/-! ## Attendance aggregation (src/repositories/attendance.py) -/

/-- String values of the `AttendanceStatus` `str`-enum
(src/models/attendance.py).  Stored documents carry the raw string, so the
document field is modelled as `String` (values outside the enum can occur in
stored data, which is exactly the edge case of claim C1). -/
def presentStatus : String := "present"

/-- String value of `AttendanceStatus.ABSENT`. -/
def absentStatus : String := "absent"

/-- String value of `AttendanceStatus.LATE`. -/
def lateStatus : String := "late"

/-- String value of `AttendanceStatus.EXCUSED`. -/
def excusedStatus : String := "excused"

/-- A stored attendance document (collection "attendance"), restricted to the
fields the aggregation pipelines read.  `attendance_date` is the ISO
`YYYY-MM-DD` string the repository stores via `.isoformat()`. -/
structure AttendanceDoc where
  member_id : String
  attendance_date : String
  attendance_type : String
  status : String
deriving DecidableEq, Repr

/-- The `$match` stage of `get_member_attendance_summary`: documents of the
given member whose `attendance_date` lies in `[startD, endD]` (`$gte`/`$lte`
on ISO strings, i.e. lexicographic comparison). -/
def matchMemberRange (memberId startD endD : String) (d : AttendanceDoc) : Bool :=
  d.member_id == memberId
    && decide (startD ≤ d.attendance_date)
    && decide (d.attendance_date ≤ endD)

/-- The `$group` stage `{_id: "$status", count: {$sum: 1}}`: one bucket per
distinct status value, carrying the number of documents with that status.
Mongo returns the buckets in unspecified order; we fix first-class
representative order via `dedup`. -/
def groupByStatus (docs : List AttendanceDoc) : List (String × Nat) :=
  ((docs.map (·.status)).dedup).map
    fun s => (s, (docs.filter (fun d => d.status == s)).length)

/-- The summary dictionary built by
`AttendanceRepository.get_member_attendance_summary`. -/
structure MemberAttendanceSummary where
  member_id : String
  start_date : String
  end_date : String
  total_services : Nat
  present_count : Nat
  absent_count : Nat
  late_count : Nat
  excused_count : Nat
  attendance_rate : ℚ
deriving DecidableEq, Repr

/-- One iteration of the Python `for result in results:` loop over the group
buckets: always add the bucket count to `total_services`, and assign the
bucket count to the dedicated counter when the status is one of the four
recognized values (statuses outside the four fall through the `elif` chain). -/
def applyGroup (s : MemberAttendanceSummary) (g : String × Nat) :
    MemberAttendanceSummary :=
  let s := { s with total_services := s.total_services + g.2 }
  if g.1 == presentStatus then { s with present_count := g.2 }
  else if g.1 == absentStatus then { s with absent_count := g.2 }
  else if g.1 == lateStatus then { s with late_count := g.2 }
  else if g.1 == excusedStatus then { s with excused_count := g.2 }
  else s

/-- `AttendanceRepository.get_member_attendance_summary`
(src/repositories/attendance.py, lines 92-158): run the
match+group pipeline over the collection, fold the buckets into the summary
dictionary, then set `attendance_rate = present/total*100` when
`total_services > 0` (it stays at its initial `0.0` otherwise). -/
def get_member_attendance_summary (memberId startD endD : String)
    (coll : List AttendanceDoc) : MemberAttendanceSummary :=
  let results := groupByStatus (coll.filter (matchMemberRange memberId startD endD))
  let init : MemberAttendanceSummary :=
    { member_id := memberId, start_date := startD, end_date := endD
      total_services := 0, present_count := 0, absent_count := 0
      late_count := 0, excused_count := 0, attendance_rate := 0 }
  let s := results.foldl applyGroup init
  if s.total_services > 0 then
    { s with attendance_rate :=
        ((s.present_count : ℚ) / (s.total_services : ℚ)) * 100 }
  else s

/-! ## ObjectId (bson) and the generic repository (src/repositories/base.py) -/

/-- Hexadecimal digit check used by `bytes.fromhex` validation. -/
def isHexChar (ch : Char) : Bool :=
  ch.isDigit || ('a' ≤ ch && ch ≤ 'f') || ('A' ≤ ch && ch ≤ 'F')

/-- Validity of a string as a bson `ObjectId`: `bson.ObjectId(s)` accepts
exactly a 24-hexadecimal-character string and raises `InvalidId` for anything
else. -/
def ObjectId.isValid (s : String) : Bool :=
  s.length == 24 && s.toList.all isHexChar

/-- Lowercasing of a single hexadecimal digit (only `A`-`F` can change on a
validated ObjectId string). -/
def hexLower (ch : Char) : Char :=
  match ch with
  | 'A' => 'a'
  | 'B' => 'b'
  | 'C' => 'c'
  | 'D' => 'd'
  | 'E' => 'e'
  | 'F' => 'f'
  | c => c

/-- Case normalization performed by `bson.ObjectId` (the hex string is
decoded with `bytes.fromhex`, so upper- and lowercase spellings denote the
same ObjectId; its string form is lowercase). -/
def hexCanon (s : String) : String :=
  String.mk (s.data.map hexLower)

/-- `bson.ObjectId(s)` for a string argument: the canonical (lowercase hex)
ObjectId on a valid input, the `InvalidId` exception otherwise. -/
def ObjectId.parse (s : String) : Except PyErr String :=
  if ObjectId.isValid s then .ok (hexCanon s) else .error .invalidId

/-- BSON value stored in a document field. -/
inductive BVal where
  | null
  | bool (b : Bool)
  | str (s : String)
  | oid (hex : String)
deriving DecidableEq, Repr

/-- A stored document of the generic repository: the store-assigned `_id`
(`oid`, canonical lowercase hex) plus the remaining fields as an association
list. -/
structure StoredDoc where
  oid : String
  fields : List (String × BVal)
deriving DecidableEq, Repr

/-- A mapped record as returned by every repository read: the store's `_id`
removed and replaced by the string field `id` (`doc["id"] = str(doc["_id"]);
del doc["_id"]`). -/
structure MappedRec where
  id : String
  fields : List (String × BVal)
deriving DecidableEq, Repr

/-- The `_id`-to-`id` renaming applied to a found document. -/
def toMapped (d : StoredDoc) : MappedRec :=
  { id := d.oid, fields := d.fields }

/-- `BaseRepository.get_by_id` (src/repositories/base.py lines 36-44).
`ObjectId(id)` is evaluated first and nothing catches `InvalidId`, so a
malformed id raises; otherwise `find_one({"_id": ObjectId(id)})` either maps
the hit (renaming `_id` to `id`) or yields `None`. -/
def get_by_id (coll : List StoredDoc) (id : String) :
    Except PyErr (Option MappedRec) :=
  match ObjectId.parse id with
  | .error e => .error e
  | .ok oid =>
    match coll.find? (fun d => d.oid == oid) with
    | some d => .ok (some (toMapped d))
    | none => .ok none

/-! ## Attendance creation (src/services/attendance.py, C2) -/

/-- An `AttendanceCreate` draft (src/models/attendance.py), after pydantic
validation.  Dates are kept as the ISO strings the repository stores. -/
structure AttendanceCreateDraft where
  member_id : String
  attendance_date : String
  attendance_type : String
  status : String
  notes : Option String
  recorded_by : String
deriving DecidableEq, Repr

/-- A stored document of the "attendance" collection with its full field
set. -/
structure AttendanceDBDoc where
  oid : String
  member_id : String
  attendance_date : String
  attendance_type : String
  status : String
  notes : Option String
  recorded_by : String
deriving DecidableEq, Repr

/-- The `Attendance` API response model (src/models/attendance.py). -/
structure AttendanceResponse where
  id : String
  member_id : String
  attendance_date : String
  attendance_type : String
  status : String
  notes : Option String
  recorded_by : String
deriving DecidableEq, Repr

/-- `AttendanceRepository.check_attendance_exists`
(src/repositories/attendance.py lines 223-240): `find_one` on the
(member, date, type) triple, `is not None`. -/
def check_attendance_exists (coll : List AttendanceDBDoc)
    (memberId aDate aType : String) : Bool :=
  (coll.find? fun doc =>
      doc.member_id == memberId
        && doc.attendance_date == aDate
        && doc.attendance_type == aType).isSome

/-- `BaseRepository.create` for the attendance collection: `insert_one` (the
store assigns the fresh ObjectId `freshId`) followed by `get_by_id` of the
inserted id, which returns exactly the inserted document. -/
def repo_create_attendance (coll : List AttendanceDBDoc) (freshId : String)
    (draft : AttendanceCreateDraft) : AttendanceDBDoc × List AttendanceDBDoc :=
  let doc : AttendanceDBDoc :=
    { oid := freshId
      member_id := draft.member_id
      attendance_date := draft.attendance_date
      attendance_type := draft.attendance_type
      status := draft.status
      notes := draft.notes
      recorded_by := draft.recorded_by }
  (doc, coll ++ [doc])

/-- The attribute access `attendance_in_db.service_time` performed by
`AttendanceService.create_attendance` (src/services/attendance.py line 58).
`AttendanceInDB` (src/models/attendance.py) defines no `service_time` field —
the model says "service_time removed" — and a pydantic model with the default
configuration raises `AttributeError` when an undefined attribute is read. -/
def readServiceTime (_ : AttendanceDBDoc) : Except PyErr Unit :=
  .error (.attributeError "service_time")

/-- `AttendanceService.create_attendance` (src/services/attendance.py lines
22-63): raise `ValueError` when `check_attendance_exists` reports a
(member, date, type) duplicate; otherwise insert via the repository and build
the `Attendance` response from the stored record — which reads the removed
`service_time` attribute. -/
def create_attendance (coll : List AttendanceDBDoc) (freshId : String)
    (draft : AttendanceCreateDraft) :
    Except PyErr (AttendanceResponse × List AttendanceDBDoc) :=
  if check_attendance_exists coll draft.member_id draft.attendance_date
      draft.attendance_type then
    .error (.valueError "Attendance record already exists for this service")
  else
    let (indb, coll') := repo_create_attendance coll freshId draft
    match readServiceTime indb with
    | .error e => .error e
    | .ok _ =>
      .ok
        ({ id := indb.oid
           member_id := indb.member_id
           attendance_date := indb.attendance_date
           attendance_type := indb.attendance_type
           status := indb.status
           notes := indb.notes
           recorded_by := indb.recorded_by }, coll')

/-! ## Generic `update` (src/repositories/base.py lines 86-97, C5) -/

/-- One key of a MongoDB `$set`: write `v` under key `k`, replacing an
existing entry or appending a new one. -/
def setField (fields : List (String × BVal)) (k : String) (v : BVal) :
    List (String × BVal) :=
  if fields.any (fun kv => kv.1 == k) then
    fields.map (fun kv => if kv.1 == k then (k, v) else kv)
  else fields ++ [(k, v)]

/-- The whole `$set` document: apply every patch entry in order.  The patch
is the output of `obj_in.model_dump(exclude_unset=True, mode="json")` — one
entry per explicitly-set field, `BVal.null` for a field explicitly set to
`None`, no entry for an untouched field. -/
def applySet (fields : List (String × BVal)) (patch : List (String × BVal)) :
    List (String × BVal) :=
  patch.foldl (fun acc kv => setField acc kv.1 kv.2) fields

/-- `update_one({"_id": oid}, {"$set": patch})`: apply the `$set` to the
matching document.  MongoDB's `modified_count` counts *modified* documents:
it is `0` both when no document matches and when the `$set` leaves the
matched document unchanged. -/
def update_one (coll : List StoredDoc) (oid : String)
    (patch : List (String × BVal)) : Nat × List StoredDoc :=
  match coll.find? (fun d => d.oid == oid) with
  | none => (0, coll)
  | some d =>
    if applySet d.fields patch == d.fields then (0, coll)
    else
      (1, coll.map fun x =>
        if x.oid == oid then { x with fields := applySet x.fields patch } else x)

/-- `BaseRepository.update` (src/repositories/base.py lines 86-97): an empty
patch short-circuits to `get_by_id`; otherwise run `update_one` and return
`get_by_id` of the id when `modified_count` is truthy, `None` otherwise. -/
def update (coll : List StoredDoc) (id : String)
    (patch : List (String × BVal)) :
    Except PyErr (Option MappedRec × List StoredDoc) :=
  if patch.isEmpty then
    match get_by_id coll id with
    | .error e => .error e
    | .ok r => .ok (r, coll)
  else
    match ObjectId.parse id with
    | .error e => .error e
    | .ok oid =>
      let (modifiedCount, coll') := update_one coll oid patch
      if modifiedCount ≠ 0 then
        match get_by_id coll' id with
        | .error e => .error e
        | .ok r => .ok (r, coll')
      else
        .ok (none, coll')

/-! ## Member soft delete (src/services/members.py lines 170-183, C4) -/

/-- The members of the `MemberStatus` `str`-enum (src/models/members.py lines
11-19), as (attribute name, value) pairs. -/
def memberStatusMembers : List (String × String) :=
  [("OUTREACH", "outreach"), ("FIRST_TIMER", "first timer"),
   ("MEMBER", "member"), ("SHEPHERD", "shepherd"),
   ("VISITOR", "visitor"), ("RELOCATED", "relocated")]

/-- Python attribute access `MemberStatus.<name>`: the enum value when the
enum defines a member of that name, an `AttributeError` otherwise. -/
def memberStatusAttr (name : String) : Except PyErr String :=
  match memberStatusMembers.lookup name with
  | some v => .ok v
  | none => .error (.attributeError name)

/-- `MemberService.delete_member` (src/services/members.py lines 170-183):
build `MemberUpdate(is_active=False, status=MemberStatus.INACTIVE)` — the
enum attribute access is evaluated first — then apply it through the
repository `update`, reporting `False` when the update found nothing. -/
def delete_member (coll : List StoredDoc) (memberId : String) :
    Except PyErr (Bool × List StoredDoc) :=
  match memberStatusAttr "INACTIVE" with
  | .error e => .error e
  | .ok status =>
    let patch : List (String × BVal) :=
      [("status", .str status), ("is_active", .bool false)]
    match update coll memberId patch with
    | .error e => .error e
    | .ok (some _, coll') => .ok (true, coll')
    | .ok (none, coll') => .ok (false, coll')

/-! ## Member uniqueness checks (src/repositories/members.py, C7) -/

/-- A stored document of the "members" collection, restricted to the fields
the uniqueness checks read.  The `_id` is kept as a `BVal` because the
checks compare it against a plain string: a BSON ObjectId and a BSON string
are distinct types and never compare equal. -/
structure MemberUniqDoc where
  mongo_id : BVal
  email : Option String
  phone : Option String
deriving DecidableEq, Repr

/-- `MemberRepository.is_email_taken` (src/repositories/members.py lines
122-130): `find_one({"email": email, "_id": {"$ne": exclude_id}})` — note the
raw string `exclude_id` on the right of `$ne` — `is not None`. -/
def is_email_taken (coll : List MemberUniqDoc) (email : String)
    (excludeId : Option String) : Bool :=
  (coll.find? fun d =>
      d.email == some email
        && (match excludeId with
            | some ex => !(d.mongo_id == BVal.str ex)
            | none => true)).isSome

/-- `MemberRepository.is_phone_taken` (src/repositories/members.py lines
132-140): identical shape on the `phone` field. -/
def is_phone_taken (coll : List MemberUniqDoc) (phone : String)
    (excludeId : Option String) : Bool :=
  (coll.find? fun d =>
      d.phone == some phone
        && (match excludeId with
            | some ex => !(d.mongo_id == BVal.str ex)
            | none => true)).isSome

/-! ## Generic `get_many` (src/repositories/base.py lines 46-84, C8) -/

/-- BSON type rank used by MongoDB when a sort compares values of different
types (Null < String < ObjectId < Boolean). -/
def BVal.rank : BVal → Nat
  | .null => 0
  | .str _ => 1
  | .oid _ => 2
  | .bool _ => 3

/-- MongoDB's ascending comparison of two BSON values: by type rank, then by
value within the type. -/
def BVal.le (a b : BVal) : Bool :=
  match a, b with
  | .null, .null => true
  | .str x, .str y => decide (x ≤ y)
  | .oid x, .oid y => decide (x ≤ y)
  | .bool x, .bool y => !x || y
  | _, _ => decide (BVal.rank a ≤ BVal.rank b)

/-- Sort-key comparison where a document may lack the sort field: a missing
field sorts before every present value. -/
def keyLe : Option BVal → Option BVal → Bool
  | none, _ => true
  | some _, none => false
  | some a, some b => BVal.le a b

/-- Case-insensitive substring test: the semantics of Mongo's
`{"$regex": s, "$options": "i"}` for a pattern without regex
metacharacters. -/
def regexMatchCI (pat : String) (v : BVal) : Bool :=
  match v with
  | .str t => decide (pat.toLower.toList <:+: t.toLower.toList)
  | _ => false

/-- One disjunct of the `$or` search filter: does field `k` of the document
match the search pattern? A document without the field never matches. -/
def fieldSearch (d : StoredDoc) (k : String) (s : String) : Bool :=
  match d.fields.lookup k with
  | some v => regexMatchCI s v
  | none => false

/-- `BaseRepository.get_many` (src/repositories/base.py lines 46-84): combine
the filter with the (placeholder-field) `$or` search when one is given, sort
by the single `sort_by` field (`1 if sort_order == "asc" else -1`), then
`skip`, then `limit`, then map each document by renaming `_id` to `id`.  The
filter document is represented by the per-document predicate it denotes. -/
def get_many (coll : List StoredDoc) (skip limit : Nat)
    (filterPred : StoredDoc → Bool) (search : Option String)
    (sort_by : String) (sort_order : String) : List MappedRec :=
  let filtered := coll.filter fun d =>
    filterPred d
      && (match search with
          | none => true
          | some s =>
            fieldSearch d "field1" s || fieldSearch d "field2" s
              || fieldSearch d "field3" s)
  let key : StoredDoc → Option BVal := fun d => d.fields.lookup sort_by
  let leB : StoredDoc → StoredDoc → Bool :=
    if sort_order == "asc" then fun a b => keyLe (key a) (key b)
    else fun a b => keyLe (key b) (key a)
  let sorted := filtered.insertionSort (fun a b => leB a b = true)
  ((sorted.drop skip).take limit).map toMapped

/-! ## Calendar event color validation (src/models/events.py, C6) -/

/-- The test `v.startswith("#")`: the first character of the string is
`#`. -/
def startsWithHash (s : String) : Bool :=
  s.toList.take 1 == ['#']

/-- `CalendarEventBase.validate_color` (src/models/events.py lines 55-62):
`None` passes; otherwise the value must start with `#` and have length 7 —
nothing more — else a `ValueError` is raised. -/
def validate_color (v : Option String) : Except PyErr (Option String) :=
  match v with
  | none => .ok none
  | some s =>
    if !(startsWithHash s) || s.length ≠ 7 then
      .error (.valueError "Color must be a valid hex code (e.g., #FF0000)")
    else .ok (some s)

/-- `CalendarEventUpdate.validate_color` (src/models/events.py lines
108-115): textually identical to the base validator. -/
def validate_color_update (v : Option String) : Except PyErr (Option String) :=
  match v with
  | none => .ok none
  | some s =>
    if !(startsWithHash s) || s.length ≠ 7 then
      .error (.valueError "Color must be a valid hex code (e.g., #FF0000)")
    else .ok (some s)

/-- Modelled from the spec: the `#RRGGBB` format the claim's words
describe — `#` followed by exactly six hexadecimal digits.  Used only to
compare the claimed format against what the source validator enforces. -/
def matchesHexRRGGBB (s : String) : Bool :=
  s.length == 7 && startsWithHash s && (s.toList.drop 1).all isHexChar

/-! ## AI generation adapters (src/services/insights.py and
src/services/tagging, C9) -/

/-- The fixed fallback text `AIService._fallback_text`
(src/services/insights.py lines 31-35). -/
def fallbackText : String :=
  "Unable to generate AI insight at the moment. Please try again later, or check AI configuration in settings."

/-- Outcome of one call to an external generation backend as observed at the
Python call site: either a raised exception (timeout, connection failure,
JSON decode error, missing key/index, ...) or a response carrying an HTTP
status code and the extracted text when the payload has the expected
shape (`none` when it is malformed or the field is missing/null). -/
inductive BackendOutcome where
  | raised
  | response (statusCode : Nat) (text : Option String)
deriving DecidableEq, Repr

/-- The body of `LocalAIService.generate` (src/services/insights.py lines
74-90) up to its `try`: post, `raise_for_status()` (raises
`HTTPStatusError` outside 2xx), parse, and extract
`data["choices"][0]["message"]["content"].strip()` (raises on a malformed
payload). -/
def localai_generate_body (o : BackendOutcome) : Except PyErr String :=
  match o with
  | .raised => .error .exception
  | .response code text =>
    if code < 200 || 300 ≤ code then .error (.httpStatusError code)
    else match text with
      | none => .error .exception
      | some t => .ok t.trim

/-- `LocalAIService.generate` (src/services/insights.py lines 74-96): the
body wrapped in `try`/`except`, both handlers returning the fixed fallback
text. -/
def localai_generate (o : BackendOutcome) : String :=
  match localai_generate_body o with
  | .ok t => t
  | .error _ => fallbackText

/-- Outcome of a `genai` generate call: raised, or returned with
`resp.text` (`none` when the attribute is absent/`None`). -/
inductive GeminiOutcome where
  | raised
  | returned (text : Option String)
deriving DecidableEq, Repr

/-- `GeminiService.generate` (src/services/insights.py lines 54-63): the
fallback when the backend is unconfigured; otherwise
`getattr(resp, "text", None)` then `text or fallback` — an exception, a
missing text and an empty text (falsy) all give the fallback. -/
def gemini_generate (available : Bool) (o : GeminiOutcome) : String :=
  if !available then fallbackText
  else match o with
    | .raised => fallbackText
    | .returned none => fallbackText
    | .returned (some t) => if t.isEmpty then fallbackText else t

/-- Tag post-processing shared by both tagging services: split on commas,
trim and lowercase, drop empties, keep at most five. -/
def parse_tags (content : String) : List String :=
  (((content.splitOn ",").map (fun t => t.trim.toLower)).filter
    (fun t => !t.isEmpty)).take 5

/-- `LocalTagService.generate_tags` (src/services/tagging/local_ai.py): an
exception anywhere gives `[]`; a non-200 status gives `[]`; otherwise the
content extracted with defaulting `.get` chains (empty string when missing)
is parsed into tags. -/
def localtag_generate_tags (o : BackendOutcome) : List String :=
  match o with
  | .raised => []
  | .response code text =>
    if code ≠ 200 then []
    else parse_tags (text.getD "")

/-- `GeminiTagService.generate_tags` (src/services/tagging/gemini.py): `[]`
when the model is unconfigured; `response.text or ""` then tag parsing; any
exception gives `[]`. -/
def geminitag_generate_tags (configured : Bool) (o : GeminiOutcome) :
    List String :=
  if !configured then []
  else match o with
    | .raised => []
    | .returned text => parse_tags (text.getD "")

/-! ## Timestamp refresh on initialization (src/models/base.py, C10) -/

/-- A constructed `TimestampModel` (times as a monotone `Nat` clock). -/
structure TsRecord where
  created_at : Nat
  updated_at : Nat
deriving DecidableEq, Repr

/-- Pydantic initialization of `TimestampModel` (src/models/base.py lines
11-26) at clock time `now`: each timestamp falls back to its
`default_factory` (`now`) when absent from the input, then
`model_post_init` unconditionally overwrites `updated_at` with the current
time. -/
def timestamp_model_init (created_in updated_in : Option Nat) (now : Nat) :
    TsRecord :=
  let validated : TsRecord :=
    { created_at := created_in.getD now, updated_at := updated_in.getD now }
  { validated with updated_at := now }

/-- A stored document carrying its persisted timestamps. -/
structure TsDoc where
  oid : String
  created_at : Nat
  updated_at : Nat
deriving DecidableEq, Repr

/-- `get_by_id` specialized to a timestamped collection, at read time `now`:
the found document is passed through model construction
(`self.model(**doc)`), which re-runs `model_post_init`. -/
def get_by_id_at (coll : List TsDoc) (id : String) (now : Nat) :
    Except PyErr (Option TsRecord) :=
  match ObjectId.parse id with
  | .error e => .error e
  | .ok oid =>
    match coll.find? (fun d => d.oid == oid) with
    | some d =>
      .ok (some (timestamp_model_init (some d.created_at) (some d.updated_at) now))
    | none => .ok none

/-! ## Concrete inputs used by counterexamples and witnesses -/

/-- Concrete attendance draft for C2. -/
def demoDraft : AttendanceCreateDraft :=
  { member_id := "507f1f77bcf86cd799439012"
    attendance_date := "2026-10-11"
    attendance_type := "sunday service"
    status := "present"
    notes := none
    recorded_by := "507f1f77bcf86cd799439013" }

/-- A stored duplicate of `demoDraft`'s (member, date, type) triple with
different status and notes. -/
def demoStoredDup : AttendanceDBDoc :=
  { oid := "64a000000000000000000001"
    member_id := "507f1f77bcf86cd799439012"
    attendance_date := "2026-10-11"
    attendance_type := "sunday service"
    status := "absent"
    notes := some "different notes"
    recorded_by := "507f1f77bcf86cd799439013" }

/-- A one-document generic collection for C3/C5 witnesses. -/
def demoColl : List StoredDoc :=
  [{ oid := "507f1f77bcf86cd799439011"
     fields := [("first_name", BVal.str "John"), ("is_active", BVal.bool true)] }]

/-- A members collection holding exactly one member, whose store-assigned
`_id` is the ObjectId the caller will pass as `exclude_id` (as its string
form). -/
def demoMembers : List MemberUniqDoc :=
  [{ mongo_id := BVal.oid "507f1f77bcf86cd799439011"
     email := some "taken@example.com"
     phone := some "+15551234567" }]

/-- A timestamped collection for the C10 witness: the stored record was
created at clock 100 and last updated at clock 150. -/
def demoTsColl : List TsDoc :=
  [{ oid := "507f1f77bcf86cd799439011", created_at := 100, updated_at := 150 }]

/-- A three-document collection for the C8 pagination witness. -/
def demoColl8 : List StoredDoc :=
  [{ oid := "000000000000000000000001", fields := [("name", BVal.str "b")] },
   { oid := "000000000000000000000002", fields := [("name", BVal.str "a")] },
   { oid := "000000000000000000000003", fields := [("name", BVal.str "c")] }]

/-! ### Lemmas about the summary fold -/

theorem applyGroup_total (s : MemberAttendanceSummary) (g : String × Nat) :
    (applyGroup s g).total_services = s.total_services + g.2 := by
  unfold applyGroup
  repeat' split
  all_goals rfl

theorem applyGroup_present (s : MemberAttendanceSummary) (g : String × Nat) :
    (applyGroup s g).present_count =
      if g.1 == presentStatus then g.2 else s.present_count := by
  unfold applyGroup
  repeat' split
  all_goals simp_all

theorem applyGroup_absent (s : MemberAttendanceSummary) (g : String × Nat) :
    (applyGroup s g).absent_count =
      if g.1 == absentStatus then g.2 else s.absent_count := by
  unfold applyGroup
  repeat' split
  all_goals simp_all [presentStatus, absentStatus, lateStatus, excusedStatus]

theorem applyGroup_late (s : MemberAttendanceSummary) (g : String × Nat) :
    (applyGroup s g).late_count =
      if g.1 == lateStatus then g.2 else s.late_count := by
  unfold applyGroup
  repeat' split
  all_goals simp_all [presentStatus, absentStatus, lateStatus, excusedStatus]

theorem applyGroup_excused (s : MemberAttendanceSummary) (g : String × Nat) :
    (applyGroup s g).excused_count =
      if g.1 == excusedStatus then g.2 else s.excused_count := by
  unfold applyGroup
  repeat' split
  all_goals simp_all [presentStatus, absentStatus, lateStatus, excusedStatus]

theorem applyGroup_rate (s : MemberAttendanceSummary) (g : String × Nat) :
    (applyGroup s g).attendance_rate = s.attendance_rate := by
  unfold applyGroup
  repeat' split
  all_goals rfl

theorem foldl_applyGroup_rate (gs : List (String × Nat))
    (s0 : MemberAttendanceSummary) :
    (gs.foldl applyGroup s0).attendance_rate = s0.attendance_rate := by
  induction gs generalizing s0 with
  | nil => rfl
  | cons g gs ih => simp [ih, applyGroup_rate]

theorem foldl_applyGroup_total (gs : List (String × Nat))
    (s0 : MemberAttendanceSummary) :
    (gs.foldl applyGroup s0).total_services =
      s0.total_services + (gs.map (·.2)).sum := by
  induction gs generalizing s0 with
  | nil => simp
  | cons g gs ih => simp [ih, applyGroup_total, Nat.add_assoc]

/-- A counter that is only ever overwritten on key `c` is untouched by a fold
over buckets none of which has key `c`. -/
theorem foldl_applyGroup_skip (c : String) (proj : MemberAttendanceSummary → Nat)
    (hproj : ∀ s g, proj (applyGroup s g) = if g.1 == c then g.2 else proj s)
    (gs : List (String × Nat)) (h : ∀ g ∈ gs, (g.1 == c) = false)
    (s0 : MemberAttendanceSummary) :
    proj (gs.foldl applyGroup s0) = proj s0 := by
  induction gs generalizing s0 with
  | nil => rfl
  | cons g gs ih =>
    have hg : (g.1 == c) = false := h g (List.mem_cons_self _ _)
    simp only [List.foldl_cons]
    rw [ih (fun x hx => h x (List.mem_cons_of_mem _ hx)), hproj, hg]
    simp

/-- Folding the buckets assigns to each recognized counter the count of its
(unique, by `Nodup`) bucket, and leaves it at the initial value when no bucket
carries that status. -/
theorem foldl_applyGroup_assign (c : String) (proj : MemberAttendanceSummary → Nat)
    (hproj : ∀ s g, proj (applyGroup s g) = if g.1 == c then g.2 else proj s)
    (gs : List (String × Nat)) (hnd : (gs.map Prod.fst).Nodup)
    (s0 : MemberAttendanceSummary) :
    proj (gs.foldl applyGroup s0) =
      match gs.find? (fun g => g.1 == c) with
      | some g => g.2
      | none => proj s0 := by
  induction gs generalizing s0 with
  | nil => rfl
  | cons g gs ih =>
    simp only [List.map_cons, List.nodup_cons] at hnd
    by_cases hc : (g.1 == c) = true
    · have hcc : g.1 = c := by simpa using hc
      have hrest : ∀ x ∈ gs, (x.1 == c) = false := by
        intro x hx
        have : x.1 ≠ c := by
          intro hxc
          apply hnd.1
          have hmem : x.1 ∈ List.map Prod.fst gs := List.mem_map_of_mem Prod.fst hx
          rw [hxc, ← hcc] at hmem
          exact hmem
        simpa using this
      simp only [List.foldl_cons, List.find?_cons, hc, cond_true]
      rw [foldl_applyGroup_skip c proj hproj gs hrest, hproj, hc]
      simp
    · have hc' : (g.1 == c) = false := by simpa using hc
      simp only [List.foldl_cons, List.find?_cons, hc', cond_false]
      rw [ih hnd.2]
      have : proj (applyGroup s0 g) = proj s0 := by rw [hproj, hc']; simp
      rw [this]

/-- Finding a key in an association list built by pairing each element with a
function of it. -/
theorem find?_pair_map (c : String) (l : List String) (f : String → Nat) :
    ((l.map fun s => (s, f s)).find? (fun g => g.1 == c)) =
      if c ∈ l then some (c, f c) else none := by
  induction l with
  | nil => simp
  | cons a l ih =>
    by_cases h : a = c
    · subst h
      simp [List.find?_cons]
    · have hne : (a == c) = false := by simpa using h
      have h' : ¬c = a := fun hca => h hca.symm
      simp [List.find?_cons, hne, ih, h']

theorem groupByStatus_keys (docs : List AttendanceDoc) :
    (groupByStatus docs).map Prod.fst = (docs.map (·.status)).dedup := by
  unfold groupByStatus
  rw [List.map_map]
  exact List.map_id _

/-- Counting documents with a given status equals counting the status value in
the projected status list. -/
theorem count_status (docs : List AttendanceDoc) (c : String) :
    (docs.map (·.status)).count c = (docs.filter (fun d => d.status == c)).length := by
  induction docs with
  | nil => rfl
  | cons d docs ih =>
    by_cases h : d.status = c
    · simp [List.count_cons, List.filter_cons, h, ih]
    · have hne : (d.status == c) = false := by simpa using h
      simp [List.count_cons, List.filter_cons, hne, ih]

/-- The group counts sum to the number of matched documents: the `$group`
stage partitions its input. -/
theorem groupByStatus_sum (docs : List AttendanceDoc) :
    ((groupByStatus docs).map (·.2)).sum = docs.length := by
  unfold groupByStatus
  rw [List.map_map]
  have hcongr :
      ((docs.map (·.status)).dedup.map
        ((fun g : String × Nat => g.2) ∘ fun s => (s, (docs.filter (fun d => d.status == s)).length)))
      = (docs.map (·.status)).dedup.map (fun s => (docs.map (·.status)).count s) := by
    refine List.map_congr_left ?_
    intro s _
    simp [count_status]
  rw [hcongr, List.sum_map_count_dedup_eq_length, List.length_map]

/-- Claim C1: over any stored collection, the member summary's
`total_services` counts every record of the member in the date range
regardless of status; each of the four recognized statuses gets exactly the
count of records with that status (values outside the four contribute to the
total only); and `attendance_rate` is `present/total*100`, `0` when the total
is `0`. -/
theorem member_attendance_summary_correct (memberId startD endD : String)
    (coll : List AttendanceDoc) :
    (get_member_attendance_summary memberId startD endD coll).total_services
        = (coll.filter (matchMemberRange memberId startD endD)).length
    ∧ (get_member_attendance_summary memberId startD endD coll).present_count
        = ((coll.filter (matchMemberRange memberId startD endD)).filter
            (fun d => d.status == presentStatus)).length
    ∧ (get_member_attendance_summary memberId startD endD coll).absent_count
        = ((coll.filter (matchMemberRange memberId startD endD)).filter
            (fun d => d.status == absentStatus)).length
    ∧ (get_member_attendance_summary memberId startD endD coll).late_count
        = ((coll.filter (matchMemberRange memberId startD endD)).filter
            (fun d => d.status == lateStatus)).length
    ∧ (get_member_attendance_summary memberId startD endD coll).excused_count
        = ((coll.filter (matchMemberRange memberId startD endD)).filter
            (fun d => d.status == excusedStatus)).length
    ∧ (get_member_attendance_summary memberId startD endD coll).attendance_rate
        = (if (coll.filter (matchMemberRange memberId startD endD)).length = 0 then 0
           else (((coll.filter (matchMemberRange memberId startD endD)).filter
                    (fun d => d.status == presentStatus)).length : ℚ)
                / ((coll.filter (matchMemberRange memberId startD endD)).length : ℚ)
                * 100) := by
  have hnd : ((groupByStatus (coll.filter (matchMemberRange memberId startD endD))).map
      Prod.fst).Nodup := by
    rw [groupByStatus_keys]; exact List.nodup_dedup _
  have hcnt : ∀ (c : String) (proj : MemberAttendanceSummary → Nat),
      (∀ s g, proj (applyGroup s g) = if g.1 == c then g.2 else proj s) →
      ∀ (s0 : MemberAttendanceSummary), proj s0 = 0 →
      proj ((groupByStatus (coll.filter (matchMemberRange memberId startD endD))).foldl
          applyGroup s0)
        = ((coll.filter (matchMemberRange memberId startD endD)).filter
            (fun d => d.status == c)).length := by
    intro c proj hproj s0 h0
    rw [foldl_applyGroup_assign c proj hproj _ hnd s0]
    unfold groupByStatus
    rw [find?_pair_map]
    by_cases hmem :
        c ∈ ((coll.filter (matchMemberRange memberId startD endD)).map (·.status)).dedup
    · simp [hmem]
    · have hnotmem :
          c ∉ (coll.filter (matchMemberRange memberId startD endD)).map (·.status) := by
        rw [← List.mem_dedup]; exact hmem
      have hzero :
          ((coll.filter (matchMemberRange memberId startD endD)).map (·.status)).count c
            = 0 := List.count_eq_zero.mpr hnotmem
      rw [count_status] at hzero
      simp [hmem, h0, hzero.symm]
  have htotf : ∀ s0 : MemberAttendanceSummary, s0.total_services = 0 →
      ((groupByStatus (coll.filter (matchMemberRange memberId startD endD))).foldl
          applyGroup s0).total_services
        = (coll.filter (matchMemberRange memberId startD endD)).length := by
    intro s0 h0
    rw [foldl_applyGroup_total, groupByStatus_sum, h0, Nat.zero_add]
  refine ⟨?_, ?_, ?_, ?_, ?_, ?_⟩
  · simp only [get_member_attendance_summary]
    split
    · exact htotf _ rfl
    · exact htotf _ rfl
  · simp only [get_member_attendance_summary]
    split
    · exact hcnt presentStatus (·.present_count) applyGroup_present _ rfl
    · exact hcnt presentStatus (·.present_count) applyGroup_present _ rfl
  · simp only [get_member_attendance_summary]
    split
    · exact hcnt absentStatus (·.absent_count) applyGroup_absent _ rfl
    · exact hcnt absentStatus (·.absent_count) applyGroup_absent _ rfl
  · simp only [get_member_attendance_summary]
    split
    · exact hcnt lateStatus (·.late_count) applyGroup_late _ rfl
    · exact hcnt lateStatus (·.late_count) applyGroup_late _ rfl
  · simp only [get_member_attendance_summary]
    split
    · exact hcnt excusedStatus (·.excused_count) applyGroup_excused _ rfl
    · exact hcnt excusedStatus (·.excused_count) applyGroup_excused _ rfl
  · simp only [get_member_attendance_summary]
    split
    · rename_i hpos
      rw [htotf _ rfl] at hpos
      have hz : ¬((coll.filter (matchMemberRange memberId startD endD)).length = 0) :=
        Nat.pos_iff_ne_zero.mp hpos
      simp only [hz, if_false]
      rw [htotf _ rfl, hcnt presentStatus (·.present_count) applyGroup_present _ rfl]
    · rename_i hpos
      rw [htotf _ rfl] at hpos
      have hz : (coll.filter (matchMemberRange memberId startD endD)).length = 0 := by
        omega
      simp only [hz, if_true]
      rw [foldl_applyGroup_rate]

/-! ### C2: attendance creation -/

/-- Claim C2 (code bug): on an empty store the first `create_attendance` of
a fresh (member, date, type) draft does not return the created record — the
insert happens, and then building the response raises `AttributeError`
reading the removed `service_time` field — while a store already holding the
triple makes `create_attendance` raise the duplicate `ValueError` even
though the stored record has different status and notes. -/
theorem create_attendance_divergence :
    create_attendance [] "64a000000000000000000000" demoDraft
        = .error (.attributeError "service_time")
    ∧ create_attendance [demoStoredDup] "64a000000000000000000002" demoDraft
        = .error
            (.valueError "Attendance record already exists for this service") := by
  exact ⟨rfl, rfl⟩

/-! ### C3: `get_by_id` on malformed and well-formed ids -/

/-- Claim C3 counterexample: on a malformed id, `get_by_id` raises
`bson.errors.InvalidId` (nothing catches the `ObjectId(id)` failure) instead
of returning the "not found" `None` the claim asserts. -/
theorem get_by_id_malformed_raises :
    get_by_id demoColl "not-an-objectid" = .error .invalidId
    ∧ ¬(get_by_id demoColl "not-an-objectid" = .ok none) := by
  refine ⟨rfl, fun h => ?_⟩
  rw [show get_by_id demoColl "not-an-objectid" = .error .invalidId from rfl] at h
  exact Except.noConfusion h

/-- Claim C3 amended: a malformed id makes `get_by_id` raise `InvalidId`
rather than return `None`; for a well-formed id it returns `None` exactly
when no stored document carries that (case-normalized) ObjectId, and the
matching document with the store's `_id` renamed to the string field `id`
when one matches. -/
theorem get_by_id_spec (coll : List StoredDoc) (id : String) :
    (ObjectId.isValid id = false → get_by_id coll id = .error .invalidId)
    ∧ (ObjectId.isValid id = true →
        (get_by_id coll id = .ok none ↔ ∀ d ∈ coll, ¬(d.oid = hexCanon id)))
    ∧ (∀ d, ObjectId.isValid id = true →
        coll.find? (fun x => x.oid == hexCanon id) = some d →
        get_by_id coll id = .ok (some { id := d.oid, fields := d.fields })) := by
  refine ⟨?_, ?_, ?_⟩
  · intro h
    simp [get_by_id, ObjectId.parse, h]
  · intro h
    simp only [get_by_id, ObjectId.parse, h, if_true]
    constructor
    · intro heq d hd hoid
      cases hf : coll.find? (fun d => d.oid == hexCanon id) with
      | none =>
        have := List.find?_eq_none.mp hf d hd
        simp [hoid] at this
      | some d' => simp [hf] at heq
    · intro hall
      have hf : coll.find? (fun d => d.oid == hexCanon id) = none := by
        refine List.find?_eq_none.mpr fun d hd => ?_
        simpa using hall d hd
      simp [hf]
  · intro d h hf
    simp [get_by_id, ObjectId.parse, h, hf, toMapped]

/-- Witness for the amended C3 statement at concrete inputs: a well-formed
id in mixed case finds the stored document and renames `_id` to `id`; a
well-formed id with no matching document yields `None`. -/
theorem get_by_id_spec_witness :
    get_by_id demoColl "507F1F77BCF86CD799439011"
        = .ok (some { id := "507f1f77bcf86cd799439011"
                      fields := [("first_name", BVal.str "John"),
                                 ("is_active", BVal.bool true)] })
    ∧ get_by_id demoColl "ffffffffffffffffffffffff" = .ok none := by
  constructor
  · exact (get_by_id_spec demoColl "507F1F77BCF86CD799439011").2.2
      { oid := "507f1f77bcf86cd799439011"
        fields := [("first_name", BVal.str "John"),
                   ("is_active", BVal.bool true)] }
      (by decide) (by rfl)
  · exact ((get_by_id_spec demoColl "ffffffffffffffffffffffff").2.1
      (by decide)).mpr (by decide)

/-! ### C4: member soft delete -/

/-- Claim C4 (code bug): `delete_member` never soft-deletes anything — the
very first step evaluates `MemberStatus.INACTIVE`, an attribute the
`MemberStatus` enum does not define, so every call raises `AttributeError`
and the stored member is left untouched. -/
theorem delete_member_raises_attribute_error :
    delete_member demoColl "507f1f77bcf86cd799439011"
      = .error (.attributeError "INACTIVE") := rfl

/-! ### C6: calendar event color validation -/

/-- Claim C6 counterexample: `"#zzzzzz"` does not match `#RRGGBB`, yet both
the creation and the update validator accept it — the code only checks the
leading `#` and the total length. -/
theorem validate_color_not_hex_accepted :
    matchesHexRRGGBB "#zzzzzz" = false
    ∧ validate_color (some "#zzzzzz") = .ok (some "#zzzzzz")
    ∧ validate_color_update (some "#zzzzzz") = .ok (some "#zzzzzz") := by
  refine ⟨by decide, by decide, by decide⟩

/-- Claim C6 amended: on creation and update alike (the two validators are
the same function), `None` is accepted, and a present color value is
accepted exactly when it starts with `#` and has length 7 — so `"red"` and
`"#FFF"` are rejected and `"#1A2B3C"` accepted, but hex-ness of the six
remaining characters is not checked. -/
theorem validate_color_spec (s : String) :
    validate_color_update (some s) = validate_color (some s)
    ∧ validate_color none = .ok none
    ∧ validate_color_update none = .ok none
    ∧ (validate_color (some s) = .ok (some s)
        ↔ (startsWithHash s = true ∧ s.length = 7))
    ∧ (validate_color (some s)
          = .error (.valueError "Color must be a valid hex code (e.g., #FF0000)")
        ↔ ¬(startsWithHash s = true ∧ s.length = 7)) := by
  refine ⟨rfl, rfl, rfl, ?_, ?_⟩
  · unfold validate_color
    by_cases h1 : startsWithHash s <;> by_cases h2 : s.length = 7 <;>
      simp [h1, h2]
  · unfold validate_color
    by_cases h1 : startsWithHash s <;> by_cases h2 : s.length = 7 <;>
      simp [h1, h2]

/-! ### C7: email/phone uniqueness checks with `exclude_id` -/

/-- Claim C7 (code bug): the store holds exactly one member — the very
member whose id is passed as `exclude_id` — yet both checks report the
email/phone as taken: the query compares the stored ObjectId `_id` with the
plain string `exclude_id` under `$ne`, and values of different BSON types
are never equal, so the exclusion never excludes anything. -/
theorem uniqueness_check_self_exclusion_ineffective :
    is_email_taken demoMembers "taken@example.com"
        (some "507f1f77bcf86cd799439011") = true
    ∧ is_phone_taken demoMembers "+15551234567"
        (some "507f1f77bcf86cd799439011") = true := by
  exact ⟨rfl, rfl⟩

/-! ### Lemmas about `$set` application (for C5) -/

theorem lookup_append_assoc (l₁ l₂ : List (String × BVal)) (k : String) :
    (l₁ ++ l₂).lookup k
      = match l₁.lookup k with
        | some v => some v
        | none => l₂.lookup k := by
  induction l₁ with
  | nil => rfl
  | cons p rest ih =>
    by_cases h : k = p.1
    · simp [List.lookup, h]
    · have h' : (k == p.1) = false := by simpa using h
      simp [List.lookup, h', ih]

theorem lookup_eq_none_of_not_any (fields : List (String × BVal)) (k : String)
    (h : fields.any (fun kv => kv.1 == k) = false) : fields.lookup k = none := by
  induction fields with
  | nil => rfl
  | cons p rest ih =>
    simp only [List.any_cons, Bool.or_eq_false_iff] at h
    have h' : (k == p.1) = false := by
      have : ¬p.1 = k := by simpa using h.1
      simpa using fun hk => this hk.symm
    rw [show (p : String × BVal) = (p.1, p.2) from rfl, List.lookup_cons, h']
    exact ih h.2

theorem lookup_map_set (fields : List (String × BVal)) (k : String) (v : BVal) :
    (fields.map (fun kv => if kv.1 == k then (k, v) else kv)).lookup k
      = if fields.any (fun kv => kv.1 == k) then some v else none := by
  induction fields with
  | nil => rfl
  | cons p rest ih =>
    rw [List.map_cons, List.any_cons]
    cases hp : (p.1 == k) with
    | true =>
      rw [if_pos rfl, Bool.true_or, if_pos rfl, List.lookup_cons]
      simp
    | false =>
      rw [if_neg (by simp), Bool.false_or,
        show (p : String × BVal) = (p.1, p.2) from rfl, List.lookup_cons]
      have hk' : (k == p.1) = false := by
        have : ¬p.1 = k := by simpa using hp
        simpa using fun hk => this hk.symm
      rw [hk']
      exact ih

theorem lookup_map_set_ne (fields : List (String × BVal)) (k : String) (v : BVal)
    (k' : String) (h : ¬k' = k) :
    (fields.map (fun kv => if kv.1 == k then (k, v) else kv)).lookup k'
      = fields.lookup k' := by
  induction fields with
  | nil => rfl
  | cons p rest ih =>
    rw [List.map_cons,
      show (p : String × BVal) = (p.1, p.2) from rfl]
    cases hp : (p.1 == k) with
    | true =>
      have hpk : p.1 = k := by simpa using hp
      have h1 : (k' == k) = false := by simpa using h
      have h2 : (k' == p.1) = false := by rw [hpk]; exact h1
      rw [if_pos rfl, List.lookup_cons, h1, List.lookup_cons, h2]
      exact ih
    | false =>
      rw [if_neg (by simp), List.lookup_cons, List.lookup_cons]
      cases hk : (k' == p.1) with
      | true => rfl
      | false => exact ih

theorem lookup_setField_self (fields : List (String × BVal)) (k : String)
    (v : BVal) : (setField fields k v).lookup k = some v := by
  unfold setField
  by_cases h : fields.any (fun kv => kv.1 == k) = true
  · rw [if_pos h, lookup_map_set, if_pos h]
  · have h' : fields.any (fun kv => kv.1 == k) = false := Bool.eq_false_iff.mpr h
    rw [if_neg h, lookup_append_assoc, lookup_eq_none_of_not_any fields k h']
    simp [List.lookup_cons]

theorem lookup_setField_ne (fields : List (String × BVal)) (k : String)
    (v : BVal) (k' : String) (h : ¬k' = k) :
    (setField fields k v).lookup k' = fields.lookup k' := by
  unfold setField
  by_cases hany : fields.any (fun kv => kv.1 == k) = true
  · rw [if_pos hany]
    exact lookup_map_set_ne fields k v k' h
  · rw [if_neg hany, lookup_append_assoc]
    have hko : (k' == k) = false := by simpa using h
    cases hl : fields.lookup k' with
    | some w => rfl
    | none => simp [List.lookup_cons, hko]

theorem lookup_applySet_not_mem (patch : List (String × BVal))
    (fields : List (String × BVal)) (k : String)
    (h : k ∉ patch.map Prod.fst) :
    (applySet fields patch).lookup k = fields.lookup k := by
  induction patch generalizing fields with
  | nil => rfl
  | cons p rest ih =>
    simp only [List.map_cons, List.mem_cons, not_or] at h
    unfold applySet
    rw [List.foldl_cons]
    have := ih (setField fields p.1 p.2) (by simpa using h.2)
    unfold applySet at this
    rw [this, lookup_setField_ne fields p.1 p.2 k h.1]

theorem lookup_applySet_mem (patch : List (String × BVal))
    (fields : List (String × BVal)) (k : String) (v : BVal)
    (hnd : (patch.map Prod.fst).Nodup) (hmem : (k, v) ∈ patch) :
    (applySet fields patch).lookup k = some v := by
  induction patch generalizing fields with
  | nil => cases hmem
  | cons p rest ih =>
    simp only [List.map_cons, List.nodup_cons] at hnd
    rcases List.mem_cons.mp hmem with heq | hrest
    · subst heq
      unfold applySet
      rw [List.foldl_cons]
      have hnot : k ∉ rest.map Prod.fst := by simpa using hnd.1
      have := lookup_applySet_not_mem rest (setField fields k v) k hnot
      unfold applySet at this
      rw [this, lookup_setField_self]
    · unfold applySet
      rw [List.foldl_cons]
      exact ih (setField fields p.1 p.2) hnd.2 hrest

/-- A found document's `oid` satisfies the search predicate, and updating
the collection in place preserves `find?`-structure: the first match of the
updated collection is the updated first match. -/
theorem find?_after_update (coll : List StoredDoc) (o : String)
    (patch : List (String × BVal)) (d : StoredDoc)
    (hf : coll.find? (fun x => x.oid == o) = some d) :
    (coll.map fun x =>
        if x.oid == o then { x with fields := applySet x.fields patch }
        else x).find? (fun x => x.oid == o)
      = some { d with fields := applySet d.fields patch } := by
  rw [List.find?_map]
  have hcomp : ((fun x : StoredDoc => x.oid == o) ∘ fun x =>
      if x.oid == o then { x with fields := applySet x.fields patch } else x)
      = fun x => x.oid == o := by
    funext x
    by_cases hx : (x.oid == o) = true <;> simp [Function.comp, hx]
  rw [hcomp, hf]
  have hd : (d.oid == o) = true :=
    @List.find?_some StoredDoc (fun x => x.oid == o) d coll hf
  rw [Option.map_some', if_pos hd]

/-- With a well-formed id, `get_by_id` never raises: it returns the mapped
first match of the parsed ObjectId. -/
theorem get_by_id_ok_of_valid (coll : List StoredDoc) (id : String)
    (hv : ObjectId.isValid id = true) :
    get_by_id coll id
      = .ok ((coll.find? (fun d => d.oid == hexCanon id)).map toMapped) := by
  unfold get_by_id ObjectId.parse
  rw [if_pos hv]
  cases hf : coll.find? (fun d => d.oid == hexCanon id) with
  | some d => simp [hf]
  | none => simp [hf]

/-- With a malformed id, `get_by_id` raises `InvalidId` (the `ObjectId(id)`
call fails before the store is consulted). -/
theorem get_by_id_error_of_invalid (coll : List StoredDoc) (id : String)
    (h : ObjectId.isValid id = false) :
    get_by_id coll id = .error .invalidId := by
  unfold get_by_id ObjectId.parse
  rw [if_neg (by simp [h])]

/-! ### C5: partial-update semantics of the generic `update` -/

/-- Claim C5 counterexample: at the malformed id `"not-an-objectid"` the
claimed behaviors do not occur — the empty patch is not "a no-op that still
returns the current record" (the claimed outcome is explicitly refuted) and
the non-empty patch does not return the record/`None` outcome of the store
update: both calls raise `bson.errors.InvalidId` from the unguarded
`ObjectId(id)` inside `update`/`get_by_id`. -/
theorem update_malformed_id_raises :
    update demoColl "not-an-objectid" [] = .error .invalidId
    ∧ update demoColl "not-an-objectid" [("is_active", BVal.bool false)]
        = .error .invalidId
    ∧ ¬(update demoColl "not-an-objectid" []
        = .ok ((demoColl.find?
              (fun d => d.oid == hexCanon "not-an-objectid")).map toMapped,
            demoColl)) := by
  refine ⟨rfl, rfl, fun h => ?_⟩
  rw [show update demoColl "not-an-objectid" [] = .error .invalidId from rfl]
    at h
  exact Except.noConfusion h

/-- Claim C5 amended: for a well-formed (24-hex-character) id, an empty
patch is a no-op that returns the current record; for a non-empty patch the
result is "not found" (`None`) exactly when the store's `update_one`
modified zero documents; a modifying update applies the `$set` of exactly
the explicitly-set fields to the matched document, leaving fields absent
from the patch untouched and overwriting explicitly-set fields (null
included).  For a malformed id, `update` does not return at all: the
unguarded `ObjectId(id)` raises `InvalidId` on both the empty-patch path
(through `get_by_id`) and the non-empty-patch path. -/
theorem update_partial_semantics (coll : List StoredDoc) (id : String)
    (patch : List (String × BVal)) :
    (ObjectId.isValid id = false → update coll id patch = .error .invalidId)
    ∧ (ObjectId.isValid id = true → patch = [] →
      update coll id patch
        = .ok ((coll.find? (fun d => d.oid == hexCanon id)).map toMapped, coll))
    ∧ (ObjectId.isValid id = true → patch ≠ [] →
        ((∃ st, update coll id patch = .ok (none, st))
          ↔ (update_one coll (hexCanon id) patch).1 = 0))
    ∧ (∀ d, ObjectId.isValid id = true → patch ≠ [] →
        coll.find? (fun x => x.oid == hexCanon id) = some d →
        ¬(applySet d.fields patch = d.fields) →
        update coll id patch
          = .ok (some { id := d.oid, fields := applySet d.fields patch },
              coll.map fun x =>
                if x.oid == hexCanon id then
                  { x with fields := applySet x.fields patch }
                else x))
    ∧ (∀ fields k, k ∉ patch.map Prod.fst →
        (applySet fields patch).lookup k = fields.lookup k)
    ∧ (∀ fields k v, (patch.map Prod.fst).Nodup → (k, v) ∈ patch →
        (applySet fields patch).lookup k = some v) := by
  refine ⟨?_, ?_, ?_, ?_, ?_, ?_⟩
  · intro h
    unfold update
    by_cases hp : patch.isEmpty = true
    · rw [if_pos hp, get_by_id_error_of_invalid coll id h]
    · rw [if_neg hp]
      unfold ObjectId.parse
      rw [if_neg (by simp [h])]
  · intro hv hp
    subst hp
    have hred : update coll id []
        = match get_by_id coll id with
          | .error e => .error e
          | .ok r => .ok (r, coll) := rfl
    rw [hred, get_by_id_ok_of_valid coll id hv]
  · intro hv hp
    have hne : patch.isEmpty = false := by
      cases patch with
      | nil => exact absurd rfl hp
      | cons a l => rfl
    unfold update
    rw [if_neg (by simp [hne])]
    unfold ObjectId.parse
    rw [if_pos hv]
    cases hf : coll.find? (fun x => x.oid == hexCanon id) with
    | none =>
      have hu : update_one coll (hexCanon id) patch = (0, coll) := by
        unfold update_one
        rw [hf]
      simp only [hu]
      constructor
      · intro _
        trivial
      · intro _
        exact ⟨coll, by simp⟩
    | some d =>
      by_cases hch : (applySet d.fields patch == d.fields) = true
      · have hu : update_one coll (hexCanon id) patch = (0, coll) := by
          unfold update_one
          simp only [hf]
          rw [if_pos hch]
        simp only [hu]
        constructor
        · intro _
          trivial
        · intro _
          exact ⟨coll, by simp⟩
      · have hu : update_one coll (hexCanon id) patch
            = (1, coll.map fun x =>
                if x.oid == hexCanon id then
                  { x with fields := applySet x.fields patch }
                else x) := by
          unfold update_one
          simp only [hf]
          rw [if_neg hch]
        simp only [hu]
        constructor
        · rintro ⟨st, heq⟩
          rw [if_pos (by decide : (1 : Nat) ≠ 0),
            get_by_id_ok_of_valid _ id hv,
            find?_after_update coll (hexCanon id) patch d hf] at heq
          simp [toMapped] at heq
        · intro h0
          simp at h0
  · intro d hv hp hf hch
    have hne : patch.isEmpty = false := by
      cases patch with
      | nil => exact absurd rfl hp
      | cons a l => rfl
    have hch' : (applySet d.fields patch == d.fields) = false := by
      simpa using hch
    have hu : update_one coll (hexCanon id) patch
        = (1, coll.map fun x =>
            if x.oid == hexCanon id then
              { x with fields := applySet x.fields patch }
            else x) := by
      unfold update_one
      simp only [hf]
      rw [if_neg (by simp [hch'])]
    unfold update
    rw [if_neg (by simp [hne])]
    unfold ObjectId.parse
    rw [if_pos hv]
    simp only [hu]
    rw [if_pos (by decide : (1 : Nat) ≠ 0),
      get_by_id_ok_of_valid _ id hv,
      find?_after_update coll (hexCanon id) patch d hf]
    simp [toMapped]
  · exact fun fields k h => lookup_applySet_not_mem patch fields k h
  · exact fun fields k v hnd hmem => lookup_applySet_mem patch fields k v hnd hmem

/-- Witness for C5 at concrete inputs: patching `is_active` to `false` on
the demo member updates exactly that field, and an empty patch returns the
current record unchanged. -/
theorem update_partial_semantics_witness :
    update demoColl "507f1f77bcf86cd799439011" [("is_active", BVal.bool false)]
      = .ok (some { id := "507f1f77bcf86cd799439011"
                    fields := applySet
                      [("first_name", BVal.str "John"),
                       ("is_active", BVal.bool true)]
                      [("is_active", BVal.bool false)] },
          demoColl.map fun x =>
            if x.oid == hexCanon "507f1f77bcf86cd799439011" then
              { x with fields :=
                  applySet x.fields [("is_active", BVal.bool false)] }
            else x)
    ∧ update demoColl "507f1f77bcf86cd799439011" []
      = .ok ((demoColl.find?
            (fun d => d.oid == hexCanon "507f1f77bcf86cd799439011")).map
          toMapped, demoColl) := by
  constructor
  · exact (update_partial_semantics demoColl "507f1f77bcf86cd799439011"
      [("is_active", BVal.bool false)]).2.2.2.1
      { oid := "507f1f77bcf86cd799439011"
        fields := [("first_name", BVal.str "John"),
                   ("is_active", BVal.bool true)] }
      (by decide) (by decide) (by rfl) (by decide)
  · exact (update_partial_semantics demoColl "507f1f77bcf86cd799439011"
      []).2.1 (by decide) rfl

/-! ### C9: AI generation adapters -/

/-- Claim C9: the generation adapters are total — the caller always gets a
value back — and every backend failure mode is absorbed: a raised exception,
a non-2xx status or a malformed/missing payload yields the fixed fallback
text from `LocalAIService.generate`; an unconfigured backend, a raised
exception, a missing or empty `resp.text` yields it from
`GeminiService.generate`; the tagging variants yield `[]` on an exception, a
non-200 status or an unconfigured model; and a successful backend text is
passed through. -/
theorem ai_backend_failures_absorbed (o : BackendOutcome) (g : GeminiOutcome) :
    (∀ e, localai_generate_body o = .error e → localai_generate o = fallbackText)
    ∧ (∀ t, localai_generate_body o = .ok t → localai_generate o = t)
    ∧ gemini_generate false g = fallbackText
    ∧ gemini_generate true .raised = fallbackText
    ∧ gemini_generate true (.returned none) = fallbackText
    ∧ (∀ t : String, t.isEmpty = false →
        gemini_generate true (.returned (some t)) = t)
    ∧ localtag_generate_tags .raised = []
    ∧ (∀ code t, code ≠ 200 → localtag_generate_tags (.response code t) = [])
    ∧ geminitag_generate_tags false g = []
    ∧ geminitag_generate_tags true .raised = [] := by
  refine ⟨?_, ?_, rfl, rfl, rfl, ?_, rfl, ?_, rfl, rfl⟩
  · intro e h
    unfold localai_generate
    rw [h]
  · intro t h
    unfold localai_generate
    rw [h]
  · intro t ht
    simp [gemini_generate, ht]
  · intro code t h
    simp [localtag_generate_tags, h]

/-- Witness for C9 at concrete calls: a 500 response and a 404 status are
absorbed, and a 200 response's text is returned. -/
theorem ai_backend_failures_absorbed_witness :
    localai_generate (.response 500 (some "boom")) = fallbackText
    ∧ localai_generate (.response 200 (some "an insight")) = "an insight".trim
    ∧ localtag_generate_tags (.response 404 (some "a,b")) = [] := by
  refine ⟨?_, ?_, ?_⟩
  · exact (ai_backend_failures_absorbed (.response 500 (some "boom")) .raised).1
      (.httpStatusError 500) rfl
  · exact (ai_backend_failures_absorbed (.response 200 (some "an insight"))
      .raised).2.1 ("an insight".trim) rfl
  · exact (ai_backend_failures_absorbed (.response 404 (some "a,b"))
      .raised).2.2.2.2.2.2.2.1 404 (some "a,b") (by decide)

/-! ### C10: timestamp refresh on every initialization -/

/-- Claim C10: `model_post_init` runs on every model construction — also
when a stored document is read back — so the constructed record's
`updated_at` is the current clock, every record returned by `get_by_id`
reports `updated_at` equal to the read time (not the stored value), and,
provided the stored `created_at` values do not lie in the future of the
(monotone) clock, every returned record satisfies
`updated_at >= created_at`. -/
theorem timestamps_refreshed_on_read (cin uin : Option Nat) (now : Nat)
    (coll : List TsDoc) (id : String) (rec : TsRecord) :
    (timestamp_model_init cin uin now).updated_at = now
    ∧ (get_by_id_at coll id now = .ok (some rec) →
        rec.updated_at = now
        ∧ ((∀ d ∈ coll, d.created_at ≤ now) →
            rec.created_at ≤ rec.updated_at)) := by
  refine ⟨rfl, fun h => ?_⟩
  unfold get_by_id_at at h
  cases hp : ObjectId.parse id with
  | error e => simp only [hp] at h; exact Except.noConfusion h
  | ok oid =>
    cases hf : coll.find? (fun d => d.oid == oid) with
    | none =>
      simp only [hp, hf] at h
      exact Option.noConfusion (Except.ok.inj h)
    | some d =>
      simp only [hp, hf, Except.ok.injEq, Option.some.injEq] at h
      constructor
      · rw [← h]; rfl
      · intro hall
        have hd : d ∈ coll := List.mem_of_find?_eq_some hf
        rw [← h]
        simpa [timestamp_model_init] using hall d hd

/-- Witness for C10 at a concrete read: the stored record (created 100,
updated 150) read at clock 200 reports `updated_at = 200` and
`created_at ≤ updated_at`. -/
theorem timestamps_refreshed_on_read_witness :
    ({ created_at := 100, updated_at := 200 } : TsRecord).updated_at = 200
    ∧ ({ created_at := 100, updated_at := 200 } : TsRecord).created_at
        ≤ ({ created_at := 100, updated_at := 200 } : TsRecord).updated_at := by
  have h := (timestamps_refreshed_on_read (some 100) (some 150) 200 demoTsColl
    "507f1f77bcf86cd799439011" { created_at := 100, updated_at := 200 }).2 rfl
  exact ⟨h.1, h.2 (by decide)⟩

/-! ### C8: `get_many` pagination -/

/-- Claim C8: `get_many` applies sort, then skip, then limit, in that order;
consequently two consecutive pages of size `N` over a static collection
whose stored ids are pairwise distinct are exactly the first `2N` sorted
results split in two, with no id occurring twice and the two pages
disjoint. -/
theorem get_many_pagination (coll : List StoredDoc)
    (filterPred : StoredDoc → Bool) (sort_by sort_order : String) (N : Nat)
    (hnd : (coll.map StoredDoc.oid).Nodup) :
    get_many coll 0 N filterPred none sort_by sort_order
        ++ get_many coll N N filterPred none sort_by sort_order
      = get_many coll 0 (2 * N) filterPred none sort_by sort_order
    ∧ ((get_many coll 0 N filterPred none sort_by sort_order
        ++ get_many coll N N filterPred none sort_by sort_order).map
          MappedRec.id).Nodup
    ∧ ∀ r ∈ get_many coll 0 N filterPred none sort_by sort_order,
      ∀ r' ∈ get_many coll N N filterPred none sort_by sort_order,
        r.id ≠ r'.id := by
  obtain ⟨S, hSnodup, hpages⟩ : ∃ S : List StoredDoc,
      (S.map StoredDoc.oid).Nodup
      ∧ ∀ skip limit : Nat,
          get_many coll skip limit filterPred none sort_by sort_order
            = ((S.drop skip).take limit).map toMapped := by
    refine ⟨(coll.filter fun d => filterPred d && true).insertionSort
      (fun a b =>
        (if sort_order == "asc" then
          (fun a b : StoredDoc =>
            keyLe (a.fields.lookup sort_by) (b.fields.lookup sort_by))
        else
          (fun a b : StoredDoc =>
            keyLe (b.fields.lookup sort_by) (a.fields.lookup sort_by))) a b
          = true), ?_, fun _ _ => rfl⟩
    have hperm := List.perm_insertionSort
      (fun a b : StoredDoc =>
        (if sort_order == "asc" then
          (fun a b : StoredDoc =>
            keyLe (a.fields.lookup sort_by) (b.fields.lookup sort_by))
        else
          (fun a b : StoredDoc =>
            keyLe (b.fields.lookup sort_by) (a.fields.lookup sort_by))) a b
          = true)
      (coll.filter fun d => filterPred d && true)
    have hsub : ((coll.filter fun d => filterPred d && true).map
        StoredDoc.oid).Sublist (coll.map StoredDoc.oid) :=
      List.Sublist.map StoredDoc.oid (List.filter_sublist coll)
    exact ((hperm.map StoredDoc.oid).nodup_iff).mpr (hsub.nodup hnd)
  have hpage1 := hpages 0 N
  have hpage2 := hpages N N
  have hpageall := hpages 0 (2 * N)
  rw [List.drop_zero] at hpage1 hpageall
  have happend :
      get_many coll 0 N filterPred none sort_by sort_order
        ++ get_many coll N N filterPred none sort_by sort_order
      = get_many coll 0 (2 * N) filterPred none sort_by sort_order := by
    rw [hpage1, hpage2, hpageall, ← List.map_append, two_mul, List.take_add]
  have hnodup_all :
      ((get_many coll 0 N filterPred none sort_by sort_order
        ++ get_many coll N N filterPred none sort_by sort_order).map
          MappedRec.id).Nodup := by
    rw [happend, hpageall, List.map_map]
    have hco : MappedRec.id ∘ toMapped = StoredDoc.oid := rfl
    rw [hco, List.map_take]
    exact ((S.map StoredDoc.oid).take_sublist (2 * N)).nodup hSnodup
  refine ⟨happend, hnodup_all, ?_⟩
  intro r hr r' hr' heq
  rw [List.map_append] at hnodup_all
  have hdisj := List.disjoint_of_nodup_append hnodup_all
  exact hdisj (List.mem_map_of_mem MappedRec.id hr)
    (heq ▸ List.mem_map_of_mem MappedRec.id hr')

/-- Witness for C8 on a concrete three-document collection with page size 1:
the two pages concatenate to the first two sorted results and contain no
duplicate id. -/
theorem get_many_pagination_witness :
    get_many demoColl8 0 1 (fun _ => true) none "name" "asc"
        ++ get_many demoColl8 1 1 (fun _ => true) none "name" "asc"
      = get_many demoColl8 0 2 (fun _ => true) none "name" "asc"
    ∧ ((get_many demoColl8 0 1 (fun _ => true) none "name" "asc"
        ++ get_many demoColl8 1 1 (fun _ => true) none "name" "asc").map
          MappedRec.id).Nodup := by
  have h := get_many_pagination demoColl8 (fun _ => true) "name" "asc" 1
    (by decide)
  exact ⟨h.1, h.2.1⟩

end ChurchMgmt
